import Mathlib

/-!
Shallow embedding of the smithay dmabuf core:
  * `src/wayland/dmabuf/mod.rs` — the linux-dmabuf negotiation state machine
    (`ParamsHandler`: `add`, `create`, `create_immed`) and the pure validator
    `buffer_basic_checks`;
  * `src/backend/allocator/gbm.rs` — the GBM allocator adapter
    (`Allocator::create_buffer`), the export adapter (`AsDmabuf::export` for
    `GbmBuffer`) and the import adapter (`Dmabuf::import`).

Machine integers are embedded as `Nat` (u32/u64 values) or `Int` (i32/i64
values) with explicit `% 2^32` where the source performs a wrapping cast or a
possibly-wrapping operation.  Fallible operations return `Option`/`Except`.
The `backend/allocator/dmabuf.rs` module (the `Dmabuf` aggregate and its
builder) is part of the repository but absent from the provided sources, so
those few definitions are modelled from the specification and are marked as
such in their doc comments; everything else is translated directly from the
two source files.
-/

/-- 2^32 - 1, the largest u32 value. -/
def U32_MAX : Nat := 4294967295

/-- Interpretation of an `as u32` cast of an i32/i64 value (wrapping). -/
def toU32 (n : Int) : Nat := (n % 4294967296).toNat

/-- Interpretation of an `as i32` cast of a u32 value (wrapping). -/
def i32ofU32 (n : Nat) : Int :=
  if n % 4294967296 < 2147483648 then ((n % 4294967296 : Nat) : Int)
  else ((n % 4294967296 : Nat) : Int) - 4294967296

/-- Interpretation of an `as u32` cast of an i32 value, as stored in a Nat. -/
def u32ofI32 (n : Int) : Nat := toU32 n

/-- DRM format modifiers are plain u64 tags. -/
abbrev Modifier := Nat

/-- The `DRM_FORMAT_MOD_INVALID` sentinel ("no preference"). -/
def Modifier.Invalid : Modifier := 72057594037927935

/-- The `DRM_FORMAT_MOD_LINEAR` sentinel (untiled layout). -/
def Modifier.Linear : Modifier := 0

/-- Fourcc pixel-format codes are u32 values. -/
abbrev Fourcc := Nat

/-- The `Argb8888` fourcc code, used as a defensive default by the `Buffer`
impl for gbm buffer objects. -/
def Fourcc.Argb8888 : Fourcc := 875713089

/-- A `(code, modifier)` format pair (`backend::allocator::Format`). -/
structure Format where
  code : Fourcc
  modifier : Modifier
  deriving DecidableEq, Repr

/-- A pending plane as stored by `ParamsHandler::add`
(`backend::allocator::dmabuf::Plane`).  In the source `fd` is an
`Option<RawFd>` that is always `Some` between `add` and consumption, so it is
embedded as the raw descriptor. -/
structure Plane where
  fd : Int
  plane_idx : Nat
  offset : Nat
  stride : Nat
  modifier : Modifier
  deriving DecidableEq, Repr

/-- The protocol error codes of `zwp_linux_buffer_params_v1::Error`. -/
inductive ParamError where
  | AlreadyUsed
  | PlaneIdx
  | PlaneSet
  | Incomplete
  | InvalidFormat
  | InvalidDimensions
  | OutOfBounds
  | InvalidWlBuffer
  deriving DecidableEq, Repr

/-- u32 `checked_mul`: `some` of the product when it fits, else `none`. -/
def checked_mul (a b : Nat) : Option Nat :=
  if a * b ≤ U32_MAX then some (a * b) else none

/-- u32 `checked_add`: `some` of the sum when it fits, else `none`. -/
def checked_add (a b : Nat) : Option Nat :=
  if a + b ≤ U32_MAX then some (a + b) else none

/-- The per-plane body of the loop in `buffer_basic_checks`
(src/wayland/dmabuf/mod.rs lines 430-475).  `fdSize` gives the result of the
`lseek(fd, 0, SEEK_END)` probe (`none` when the `lseek` fails, in which case
the size checks are skipped).  `height` is the i32 height, already known to be
≥ 1 when the loop is reached; the source casts it with `as u32`.  The
`(plane.offset + plane.stride) as i64` comparison performs an unchecked u32
addition, embedded with its wrapping `% 2^32` semantics. -/
def checkPlane (fdSize : Int → Option Int) (height : Int) (plane : Plane) :
    Except ParamError Unit :=
  match (checked_mul plane.stride (toU32 height)).bind
      (fun o => checked_add o plane.offset) with
  | none => .error .OutOfBounds
  | some e =>
    match fdSize plane.fd with
    | none => .ok ()
    | some size =>
      if (plane.offset : Int) > size then .error .OutOfBounds
      else if (((plane.offset + plane.stride) % 4294967296 : Nat) : Int) > size then
        .error .OutOfBounds
      else if plane.plane_idx = 0 ∧ (e : Int) > size then .error .OutOfBounds
      else .ok ()

/-- The plane loop of `buffer_basic_checks`: first failure wins. -/
def checkPlanes (fdSize : Int → Option Int) (height : Int) :
    List Plane → Except ParamError Unit
  | [] => .ok ()
  | p :: ps =>
    match checkPlane fdSize height p with
    | .error e => .error e
    | .ok () => checkPlanes fdSize height ps

/-- The validator `buffer_basic_checks` (src/wayland/dmabuf/mod.rs lines
401-478).  Returns `.ok ()` where the source returns `true`; returns
`.error e` where the source posts protocol error `e` and returns `false`. -/
def buffer_basic_checks (formats : List Format) (pending_planes : List Plane)
    (fdSize : Int → Option Int) (format : Fourcc) (width height : Int) :
    Except ParamError Unit :=
  match formats.find? (fun f => f.code = format) with
  | none => .error .InvalidFormat
  | some _ =>
    if width < 1 ∨ height < 1 then .error .InvalidDimensions
    else checkPlanes fdSize height pending_planes

/-- A plane as stored inside a built `Dmabuf` aggregate.  Modelled from the
spec: the `backend/allocator/dmabuf.rs` module is absent from the provided
sources; §3 gives a Plane as descriptor, plane index, offset, stride and a
modifier copy. -/
structure DPlane where
  fd : Int
  plane_idx : Nat
  offset : Nat
  stride : Nat
  modifier : Modifier
  deriving DecidableEq, Repr

/-- The exchange aggregate / its builder (`backend::allocator::dmabuf::Dmabuf`).
Modelled from the spec: §3 Buffer is width, height, format, flags and an
ordered sequence of planes; the same record serves as the builder that
`Dmabuf::new` returns and on which `add_plane`/`build` act, as in the
source. -/
structure Dmabuf where
  width : Nat
  height : Nat
  format_code : Fourcc
  flags : Nat
  planes : List DPlane
  deriving DecidableEq, Repr

/-- Modelled from the spec: `Dmabuf::new(width, height, format, flags)` starts
an empty builder with the given metadata (§4.3, §4.4). -/
def Dmabuf.new (width height : Nat) (format : Fourcc) (flags : Nat) : Dmabuf :=
  { width := width, height := height, format_code := format, flags := flags, planes := [] }

/-- Modelled from the spec: `add_plane(fd, plane_idx, offset, stride, modifier)`
appends one plane to the builder (§4.3: ownership of the descriptor is
transferred in). -/
def Dmabuf.add_plane (b : Dmabuf) (fd : Int) (plane_idx offset stride : Nat)
    (modifier : Modifier) : Dmabuf :=
  { b with planes := b.planes ++ [⟨fd, plane_idx, offset, stride, modifier⟩] }

/-- Modelled from the spec: `build` fails (`none`) on an empty plane list and
enforces the §3 invariant that plane indices are unique and contiguous from 0
(§4.3); otherwise it returns the finished aggregate. -/
def Dmabuf.build (b : Dmabuf) : Option Dmabuf :=
  if b.planes = [] then none
  else if b.planes.map DPlane.plane_idx = List.range b.planes.length then some b
  else none

/-- Modelled from the spec: `num_planes` is the number of planes of the
aggregate (§3: 1..4 planes). -/
def Dmabuf.num_planes (b : Dmabuf) : Nat := b.planes.length

/-- Modelled from the spec: `handles()` iterates the planes' descriptors in
order (§4.7 collects descriptors positionally by plane index). -/
def Dmabuf.handles (b : Dmabuf) : List Int := b.planes.map DPlane.fd

/-- Modelled from the spec: `strides()` iterates the planes' strides. -/
def Dmabuf.strides (b : Dmabuf) : List Nat := b.planes.map DPlane.stride

/-- Modelled from the spec: `offsets()` iterates the planes' offsets. -/
def Dmabuf.offsets (b : Dmabuf) : List Nat := b.planes.map DPlane.offset

/-- Modelled from the spec: the aggregate's `Format` pairs its pixel code with
the modifier carried by its planes (§3: a Plane's `modifier` is a "Format
modifier copy"); with no plane the "no preference" sentinel stands in. -/
def Dmabuf.format (b : Dmabuf) : Format :=
  { code := b.format_code,
    modifier := ((b.planes.map DPlane.modifier).head?).getD Modifier.Invalid }

/-- Modelled from the spec: the Buffer "carries an explicit modifier" (§4.7)
when its modifier is neither of the two sentinels of §3 ("no preference",
"linear"). -/
def Dmabuf.has_modifier (b : Dmabuf) : Bool :=
  b.format.modifier ≠ Modifier.Invalid ∧ b.format.modifier ≠ Modifier.Linear

/-- The events a `ParamsHandler` operation can emit towards the client:
a protocol error posted on the params object (`post_error`), the
`created` / `failed` events of `zwp_linux_buffer_params_v1`, and a
`wl_buffer.release`. -/
inductive Event where
  | PostError (e : ParamError)
  | Created
  | Failed
  | Released
  deriving DecidableEq, Repr

/-- The mutable state of a `ParamsHandler` (src/wayland/dmabuf/mod.rs lines
183-190); the shared immutable pieces (`formats`, the handler callback, the
logger) live in `DmabufEnv`. -/
structure ParamsHandler where
  pending_planes : List Plane
  max_planes : Nat
  used : Bool
  deriving DecidableEq, Repr

/-- The initial handler built for each `CreateParams` request
(src/wayland/dmabuf/mod.rs lines 125-132). -/
def ParamsHandler.init : ParamsHandler :=
  { pending_planes := [], max_planes := 4, used := false }

/-- The environment of a negotiation: the supported format list, the fourcc
decoder (`Fourcc::try_from`, from the external drm-fourcc crate), the
descriptor size probe (`lseek`), whether `client().and_then(create_resource)`
succeeds for the deferred `create` path, and the consumer's
`DmabufHandler::validate_dmabuf` callback. -/
structure DmabufEnv where
  formats : List Format
  decodeFourcc : Nat → Option Fourcc
  fdSize : Int → Option Int
  clientAlive : Bool
  validate : Dmabuf → Bool

/-- `ParamsHandler::add` (src/wayland/dmabuf/mod.rs lines 193-236): returns
the new state and `some e` when protocol error `e` is posted, `none` on
success. -/
def ParamsHandler.add (s : ParamsHandler) (fd : Int) (plane_idx offset stride : Nat)
    (modifier : Modifier) : ParamsHandler × Option ParamError :=
  if s.used then (s, some .AlreadyUsed)
  else if s.max_planes ≤ plane_idx then (s, some .PlaneIdx)
  else if s.pending_planes.any (fun d => d.plane_idx = plane_idx) then (s, some .PlaneSet)
  else ({ s with pending_planes :=
            s.pending_planes ++ [⟨fd, plane_idx, offset, stride, modifier⟩] }, none)

/-- The plane-transfer loop shared by `create` and `create_immed`
(src/wayland/dmabuf/mod.rs lines 279-284 / 365-370):
`for (i, plane) in planes.into_iter().enumerate() { buf.add_plane(plane.into_raw_fd(), i as u32, offset, stride, modi) }`. -/
def addPendingFrom (buf : Dmabuf) (i : Nat) : List Plane → Dmabuf
  | [] => buf
  | p :: ps => addPendingFrom (buf.add_plane p.fd i p.offset p.stride p.modifier) (i + 1) ps

/-- Specification of what the enumerate loop does to the plane list: each
pending plane keeps its descriptor, offset, stride and modifier, and its
stored index is replaced by its position, counting from `i`. -/
def reindexFrom (i : Nat) : List Plane → List DPlane
  | [] => []
  | p :: ps => ⟨p.fd, i, p.offset, p.stride, p.modifier⟩ :: reindexFrom (i + 1) ps

/-- Builds the `Dmabuf` exactly as the tail of `create`/`create_immed` does
once validation has passed (src/wayland/dmabuf/mod.rs lines 272-294):
`Dmabuf::new`, the enumerate loop, then `build()`. -/
def buildFromPending (planes : List Plane) (width height : Int) (format : Fourcc)
    (flags : Nat) : Option Dmabuf :=
  (addPendingFrom (Dmabuf.new (toU32 width) (toU32 height) format flags) 0 planes).build

/-- `ParamsHandler::create` (src/wayland/dmabuf/mod.rs lines 238-314): returns
the new state together with the list of events emitted, in order. -/
def ParamsHandler.create (env : DmabufEnv) (s : ParamsHandler)
    (width height : Int) (format : Nat) (flags : Nat) :
    ParamsHandler × List Event :=
  if s.used then (s, [.PostError .AlreadyUsed])
  else
    let s1 : ParamsHandler := { s with used := true }
    match env.decodeFourcc format with
    | none => (s1, [.PostError .InvalidFormat])
    | some fourcc =>
      match buffer_basic_checks env.formats s1.pending_planes env.fdSize fourcc width height with
      | .error e => (s1, [.PostError e])
      | .ok () =>
        let s2 : ParamsHandler := { s1 with pending_planes := [] }
        match buildFromPending s1.pending_planes width height fourcc flags with
        | none => (s2, [.PostError .Incomplete])
        | some dmabuf =>
          if env.clientAlive then
            if env.validate dmabuf then (s2, [.Created])
            else (s2, [.Failed, .Released])
          else (s2, [])

/-- `ParamsHandler::create_immed` (src/wayland/dmabuf/mod.rs lines 316-398):
same pipeline as `create`, but the wl_buffer identity exists up front, so a
validator rejection posts the fatal `InvalidWlBuffer` protocol error instead
of the `failed` event, and acceptance emits no event. -/
def ParamsHandler.create_immed (env : DmabufEnv) (s : ParamsHandler)
    (width height : Int) (format : Nat) (flags : Nat) :
    ParamsHandler × List Event :=
  if s.used then (s, [.PostError .AlreadyUsed])
  else
    let s1 : ParamsHandler := { s with used := true }
    match env.decodeFourcc format with
    | none => (s1, [.PostError .InvalidFormat])
    | some fourcc =>
      match buffer_basic_checks env.formats s1.pending_planes env.fdSize fourcc width height with
      | .error e => (s1, [.PostError e])
      | .ok () =>
        let s2 : ParamsHandler := { s1 with pending_planes := [] }
        match buildFromPending s1.pending_planes width height fourcc flags with
        | none => (s2, [.PostError .Incomplete])
        | some dmabuf =>
          if env.validate dmabuf then (s2, [])
          else (s2, [.PostError .InvalidWlBuffer])

/-- The single error of fallible gbm queries (`gbm::DeviceDestroyedError`):
the device backing the buffer object was destroyed. -/
inductive DeviceDestroyedError where
  | mk
  deriving DecidableEq, Repr

/-- `GbmConvertError` (src/backend/allocator/gbm.rs lines 49-60). -/
inductive GbmConvertError where
  | DeviceDestroyed
  | UnsupportedBuffer
  | InvalidFD
  deriving DecidableEq, Repr

/-- A gbm buffer object, seen through the queries the source performs on it
(the gbm crate is an external collaborator; §3 "Driver Buffer Object" is an
opaque resource with queryable metadata).  Each query either yields a value or
fails with `DeviceDestroyedError`, matching the gbm crate signatures. -/
structure GbmBuffer where
  plane_count : Except DeviceDestroyedError Nat
  handle_for_plane : Nat → Except DeviceDestroyedError Nat
  fd : Except DeviceDestroyedError Int
  offset : Nat → Except DeviceDestroyedError Nat
  stride_for_plane : Nat → Except DeviceDestroyedError Nat
  modifier : Except DeviceDestroyedError Modifier
  width_q : Except DeviceDestroyedError Nat
  height_q : Except DeviceDestroyedError Nat
  format_q : Except DeviceDestroyedError Fourcc

/-- `unwrap_or` on a gbm query result. -/
def orDefault {α : Type} (x : Except DeviceDestroyedError α) (d : α) : α :=
  match x with
  | .ok a => a
  | .error _ => d

/-- The `Buffer` impl for `GbmBuffer` (src/backend/allocator/gbm.rs lines
31-46): `width`/`height` default to 0, the format code to `Argb8888` and the
modifier to `Invalid` when the underlying query fails. -/
def GbmBuffer.buffer_width (b : GbmBuffer) : Nat := orDefault b.width_q 0

/-- Height via the `Buffer` impl, defaulting to 0 on a failed query. -/
def GbmBuffer.buffer_height (b : GbmBuffer) : Nat := orDefault b.height_q 0

/-- Format via the `Buffer` impl (src/backend/allocator/gbm.rs lines 40-45). -/
def GbmBuffer.buffer_format (b : GbmBuffer) : Format :=
  { code := orDefault b.format_q Fourcc.Argb8888,
    modifier := orDefault b.modifier Modifier.Invalid }

/-- Modelled from the spec: `Dmabuf::new_from_buffer` starts a builder taking
width, height and format from the source Buffer's queryable metadata (§4.6
"Build a Buffer", §3); flags are supplied by the caller. -/
def Dmabuf.new_from_buffer (b : GbmBuffer) (flags : Nat) : Dmabuf :=
  { width := b.buffer_width, height := b.buffer_height,
    format_code := b.buffer_format.code, flags := flags, planes := [] }

/-- The `iter.try_fold(first, ...)` of `AsDmabuf::export`
(src/backend/allocator/gbm.rs lines 69-79), with its short-circuit: fold the
handles of the remaining plane indices against the first handle; any query
failure or handle mismatch collapses to `none`. -/
def handleFold (b : GbmBuffer) : List Nat → Except DeviceDestroyedError Nat →
    Option (Except DeviceDestroyedError Nat)
  | [], first => some first
  | i :: is, first =>
    match b.handle_for_plane i, first with
    | .ok next, .ok f => if next = f then handleFold b is (.ok f) else none
    | _, _ => none

/-- Outcome of `AsDmabuf::export`: success, a typed conversion error, or a
Rust panic (`expect` on a zero-plane buffer / `unwrap` on `build`). -/
inductive ExportResult where
  | ok (d : Dmabuf)
  | err (e : GbmConvertError)
  | panic
  deriving DecidableEq, Repr

/-- The plane loop of `export` (src/backend/allocator/gbm.rs lines 93-101):
for each index, query `fd`, `offset`, `stride_for_plane` and `modifier` (each
fallible, `?`-propagated as `DeviceDestroyed`) and add the plane. -/
def exportPlanesLoop (b : GbmBuffer) : List Nat → Dmabuf →
    Except GbmConvertError Dmabuf
  | [], buf => .ok buf
  | i :: is, buf =>
    match b.fd with
    | .error _ => .error .DeviceDestroyed
    | .ok f =>
      match b.offset i with
      | .error _ => .error .DeviceDestroyed
      | .ok o =>
        match b.stride_for_plane i with
        | .error _ => .error .DeviceDestroyed
        | .ok st =>
          match b.modifier with
          | .error _ => .error .DeviceDestroyed
          | .ok m => exportPlanesLoop b is (buf.add_plane f i o st m)

/-- `AsDmabuf::export` for gbm buffer objects (src/backend/allocator/gbm.rs
lines 62-104). -/
def GbmBuffer.export (b : GbmBuffer) : ExportResult :=
  match b.plane_count with
  | .error _ => .err .DeviceDestroyed
  | .ok planes =>
    if planes = 0 then .panic
    else
      let first := b.handle_for_plane 0
      match handleFold b (List.range' 1 (planes - 1)) first with
      | none => .err .UnsupportedBuffer
      | some _ =>
        match b.fd with
        | .error _ => .err .DeviceDestroyed
        | .ok f0 =>
          if f0 = 0 then .err .InvalidFD
          else
            match exportPlanesLoop b (List.range planes) (Dmabuf.new_from_buffer b 0) with
            | .error e => .err e
            | .ok buf =>
              match buf.build with
              | some d => .ok d
              | none => .panic

/-- The subset of gbm `BufferObjectFlags` the source manipulates; the union of
flags is field-wise disjunction. -/
structure BufferObjectFlags where
  scanout : Bool
  rendering : Bool
  linear : Bool
  deriving DecidableEq, Repr

/-- Bitwise-or of gbm usage flags. -/
def BufferObjectFlags.union (a b : BufferObjectFlags) : BufferObjectFlags :=
  ⟨a.scanout || b.scanout, a.rendering || b.rendering, a.linear || b.linear⟩

/-- The `LINEAR` gbm usage flag. -/
def BufferObjectFlags.LINEAR : BufferObjectFlags := ⟨false, false, true⟩

/-- The gbm creation call issued by `Allocator::create_buffer`: either
`create_buffer_object` (usage-flag path) or
`create_buffer_object_with_modifiers` (explicit-modifier path), with its
arguments. -/
inductive GbmCreateCall where
  | usagePath (width height : Nat) (code : Fourcc) (usage : BufferObjectFlags)
  | modifierPath (width height : Nat) (code : Fourcc) (modifiers : List Modifier)
  deriving DecidableEq, Repr

/-- `Allocator::create_buffer` for `GbmDevice`
(src/backend/allocator/gbm.rs lines 10-29), embedded as the driver call it
issues (the driver's own success or I/O failure is external). -/
def GbmDevice.create_buffer (width height : Nat) (format : Format) : GbmCreateCall :=
  if format.modifier = Modifier.Invalid ∨ format.modifier = Modifier.Linear then
    let usage : BufferObjectFlags :=
      if format.modifier = Modifier.Linear then
        (BufferObjectFlags.mk true true false).union BufferObjectFlags.LINEAR
      else BufferObjectFlags.mk true true false
    .usagePath width height format.code usage
  else
    .modifierPath width height format.code [format.modifier]

/-- The gbm import call issued by `Dmabuf::import`: either
`import_buffer_object_from_dma_buf_with_modifiers` or the simple
`import_buffer_object_from_dma_buf`, with its arguments. -/
inductive GbmImportCall where
  | withModifiers (num_planes : Nat) (handles : List Int) (width height : Nat)
      (code : Fourcc) (usage : BufferObjectFlags) (strides offsets : List Int)
      (modifier : Modifier)
  | simple (handle : Int) (width height : Nat) (stride : Nat) (code : Fourcc)
      (usage : BufferObjectFlags)
  deriving DecidableEq, Repr

/-- The `[0; MAX_PLANES]` array filled by `iter.take(MAX_PLANES).enumerate()`
(src/backend/allocator/gbm.rs lines 113-124): the first four elements of the
list, padded to length 4 with zeroes. -/
def fill4 (l : List Int) : List Int :=
  l.take 4 ++ List.replicate (4 - (l.take 4).length) 0

/-- `Dmabuf::import` (src/backend/allocator/gbm.rs lines 106-153), embedded as
the gbm call it issues; `none` is the panic of `self.offsets().next().unwrap()`
on a zero-plane buffer.  The `||` of the source short-circuits, so the
`unwrap` only runs when the first two disjuncts are false. -/
def Dmabuf.import (d : Dmabuf) (usage : BufferObjectFlags) : Option GbmImportCall :=
  let handles := fill4 d.handles
  let strides := fill4 (d.strides.map i32ofU32)
  let offsets := fill4 (d.offsets.map i32ofU32)
  if d.has_modifier ∨ 1 < d.num_planes then
    some (.withModifiers d.num_planes handles d.width d.height d.format_code
      usage strides offsets d.format.modifier)
  else
    match d.offsets.head? with
    | none => none
    | some o0 =>
      if o0 ≠ 0 then
        some (.withModifiers d.num_planes handles d.width d.height d.format_code
          usage strides offsets d.format.modifier)
      else
        some (.simple (handles.headD 0) d.width d.height
          (u32ofI32 (strides.headD 0)) d.format_code
          (if d.format.modifier = Modifier.Linear then usage.union .LINEAR else usage))

/-! Concrete fixtures used by the witness theorems. -/

/-- A concrete negotiation environment: one supported format, a rejecting
validation callback, no size probe, live client. -/
def envW : DmabufEnv :=
  { formats := [⟨1, Modifier.Linear⟩],
    decodeFourcc := fun n => if n = 1 then some 1 else none,
    fdSize := fun _ => none,
    clientAlive := true,
    validate := fun _ => false }

/-- A handler that has accumulated one plane at index 0. -/
def sW : ParamsHandler :=
  { pending_planes := [⟨5, 0, 0, 64, Modifier.Linear⟩], max_planes := 4, used := false }

/-- The buffer `buildFromPending` produces from `sW`'s plane at 16x16. -/
def dW : Dmabuf :=
  { width := 16, height := 16, format_code := 1, flags := 0,
    planes := [⟨5, 0, 0, 64, Modifier.Linear⟩] }

/-- A single-plane gbm buffer object whose plane handle is unreadable but
whose whole-object descriptor and metadata queries succeed. -/
def cexBuf : GbmBuffer :=
  { plane_count := .ok 1,
    handle_for_plane := fun _ => .error .mk,
    fd := .ok 5,
    offset := fun _ => .ok 0,
    stride_for_plane := fun _ => .ok 256,
    modifier := .ok Modifier.Linear,
    width_q := .ok 64, height_q := .ok 64, format_q := .ok 1 }

/-- A well-behaved two-plane gbm buffer object sharing one allocation
handle. -/
def gbmW : GbmBuffer :=
  { plane_count := .ok 2,
    handle_for_plane := fun _ => .ok 7,
    fd := .ok 5,
    offset := fun i => .ok (i * 4096),
    stride_for_plane := fun _ => .ok 256,
    modifier := .ok 42,
    width_q := .ok 64, height_q := .ok 64, format_q := .ok 1 }

/-! Helper lemmas. -/

theorem add_of_used {s : ParamsHandler} (h : s.used = true) (fd : Int)
    (idx off st : Nat) (m : Modifier) :
    s.add fd idx off st m = (s, some .AlreadyUsed) := by
  simp [ParamsHandler.add, h]

theorem create_of_used (env : DmabufEnv) {s : ParamsHandler} (h : s.used = true)
    (w hh : Int) (fmt fl : Nat) :
    ParamsHandler.create env s w hh fmt fl = (s, [.PostError .AlreadyUsed]) := by
  simp [ParamsHandler.create, h]

theorem create_immed_of_used (env : DmabufEnv) {s : ParamsHandler} (h : s.used = true)
    (w hh : Int) (fmt fl : Nat) :
    ParamsHandler.create_immed env s w hh fmt fl = (s, [.PostError .AlreadyUsed]) := by
  simp [ParamsHandler.create_immed, h]

theorem create_used (env : DmabufEnv) (s : ParamsHandler) (w h : Int) (fmt fl : Nat) :
    (ParamsHandler.create env s w h fmt fl).1.used = true := by
  unfold ParamsHandler.create
  by_cases hu : s.used = true
  · simp [hu]
  · simp only [Bool.not_eq_true] at hu
    simp only [hu, Bool.false_eq_true, if_false]
    cases hdf : env.decodeFourcc fmt with
    | none => simp
    | some fc =>
      cases hc : buffer_basic_checks env.formats s.pending_planes env.fdSize fc w h with
      | error e => simp [hc]
      | ok u =>
        cases u
        cases hb : buildFromPending s.pending_planes w h fc fl with
        | none => simp [hc, hb]
        | some d =>
          by_cases hca : env.clientAlive = true
          · by_cases hv : env.validate d = true
            · simp [hc, hb, hca, hv]
            · simp only [Bool.not_eq_true] at hv; simp [hc, hb, hca, hv]
          · simp only [Bool.not_eq_true] at hca; simp [hc, hb, hca]

theorem create_immed_used (env : DmabufEnv) (s : ParamsHandler) (w h : Int) (fmt fl : Nat) :
    (ParamsHandler.create_immed env s w h fmt fl).1.used = true := by
  unfold ParamsHandler.create_immed
  by_cases hu : s.used = true
  · simp [hu]
  · simp only [Bool.not_eq_true] at hu
    simp only [hu, Bool.false_eq_true, if_false]
    cases hdf : env.decodeFourcc fmt with
    | none => simp
    | some fc =>
      cases hc : buffer_basic_checks env.formats s.pending_planes env.fdSize fc w h with
      | error e => simp [hc]
      | ok u =>
        cases u
        cases hb : buildFromPending s.pending_planes w h fc fl with
        | none => simp [hc, hb]
        | some d =>
          by_cases hv : env.validate d = true
          · simp [hc, hb, hv]
          · simp only [Bool.not_eq_true] at hv; simp [hc, hb, hv]

/-- C1: after any call to `create` or `create_immed` — whatever its outcome —
the params object is in the `Used` state, and every subsequent `add`,
`create` or `create_immed` on it fails with `AlreadyUsed` and leaves the
state unchanged. -/
theorem params_terminality (env : DmabufEnv) (s : ParamsHandler) (w h : Int)
    (fmt fl : Nat) (s' : ParamsHandler)
    (hs' : s' = (ParamsHandler.create env s w h fmt fl).1 ∨
           s' = (ParamsHandler.create_immed env s w h fmt fl).1) :
    s'.used = true ∧
    (∀ fd idx off st m, s'.add fd idx off st m = (s', some .AlreadyUsed)) ∧
    (∀ env2 w2 h2 fmt2 fl2,
      ParamsHandler.create env2 s' w2 h2 fmt2 fl2 = (s', [.PostError .AlreadyUsed])) ∧
    (∀ env2 w2 h2 fmt2 fl2,
      ParamsHandler.create_immed env2 s' w2 h2 fmt2 fl2 = (s', [.PostError .AlreadyUsed])) := by
  have hu : s'.used = true := by
    rcases hs' with rfl | rfl
    · exact create_used env s w h fmt fl
    · exact create_immed_used env s w h fmt fl
  exact ⟨hu, fun fd idx off st m => add_of_used hu fd idx off st m,
    fun env2 w2 h2 fmt2 fl2 => create_of_used env2 hu w2 h2 fmt2 fl2,
    fun env2 w2 h2 fmt2 fl2 => create_immed_of_used env2 hu w2 h2 fmt2 fl2⟩

/-- Witness for C1 at a concrete input. -/
theorem params_terminality_witness :
    ((ParamsHandler.create envW ParamsHandler.init 16 16 1 0).1).used = true ∧
    ((ParamsHandler.create envW ParamsHandler.init 16 16 1 0).1).add 5 0 0 64 0 =
      ((ParamsHandler.create envW ParamsHandler.init 16 16 1 0).1, some .AlreadyUsed) :=
  have h := params_terminality envW ParamsHandler.init 16 16 1 0
    (ParamsHandler.create envW ParamsHandler.init 16 16 1 0).1 (Or.inl rfl)
  ⟨h.1, h.2.1 5 0 0 64 0⟩

/-- C5: in the `Accumulating` state (`used = false`, `max_planes = 4`),
`add` fails with `PlaneIdx` for any plane index ≥ 4, fails with `PlaneSet`
(changing nothing) when the index is already set, and otherwise appends
exactly one new plane, staying in `Accumulating`. -/
theorem add_accumulating (s : ParamsHandler) (hused : s.used = false)
    (hmax : s.max_planes = 4) (fd : Int) (idx off st : Nat) (m : Modifier) :
    (4 ≤ idx → s.add fd idx off st m = (s, some .PlaneIdx)) ∧
    (idx < 4 → (∃ p ∈ s.pending_planes, p.plane_idx = idx) →
      s.add fd idx off st m = (s, some .PlaneSet)) ∧
    (idx < 4 → (∀ p ∈ s.pending_planes, p.plane_idx ≠ idx) →
      s.add fd idx off st m =
        ({ s with pending_planes := s.pending_planes ++ [⟨fd, idx, off, st, m⟩] }, none) ∧
      ({ s with pending_planes := s.pending_planes ++ [⟨fd, idx, off, st, m⟩]
          : ParamsHandler }).used = false) := by
  refine ⟨fun hge => ?_, fun hlt hdup => ?_, fun hlt hnew => ?_⟩
  · simp [ParamsHandler.add, hused, hmax, hge]
  · have hany : s.pending_planes.any (fun d => d.plane_idx = idx) = true := by
      obtain ⟨p, hp, hpi⟩ := hdup
      simp only [List.any_eq_true, decide_eq_true_eq]
      exact ⟨p, hp, hpi⟩
    simp [ParamsHandler.add, hused, hmax, Nat.not_le.mpr hlt, hany]
  · have hany : s.pending_planes.any (fun d => d.plane_idx = idx) = false := by
      simp only [List.any_eq_false, decide_eq_true_eq]
      exact hnew
    constructor
    · simp [ParamsHandler.add, hused, hmax, Nat.not_le.mpr hlt, hany]
    · exact hused

/-- Witness for C5 at concrete inputs: an out-of-range index, a duplicate
index and a fresh index. -/
theorem add_accumulating_witness :
    sW.add 6 4 0 64 0 = (sW, some .PlaneIdx) ∧
    sW.add 6 0 0 64 0 = (sW, some .PlaneSet) ∧
    sW.add 6 1 0 64 0 =
      ({ sW with pending_planes := sW.pending_planes ++ [⟨6, 1, 0, 64, 0⟩] }, none) :=
  have h := add_accumulating sW rfl rfl 6 4 0 64 0
  have h0 := add_accumulating sW rfl rfl 6 0 0 64 0
  have h1 := add_accumulating sW rfl rfl 6 1 0 64 0
  ⟨h.1 (by decide), h0.2.1 (by decide) ⟨⟨5, 0, 0, 64, Modifier.Linear⟩, by decide, rfl⟩,
    (h1.2.2 (by decide) (by decide)).1⟩

theorem toU32_of_bounds {n : Int} (h0 : 0 ≤ n) (h1 : n < 4294967296) :
    toU32 n = n.toNat := by
  unfold toU32
  rw [Int.emod_eq_of_lt h0 h1]

theorem checked_chain_eq (a b c : Nat) :
    (checked_mul a b).bind (fun o => checked_add o c) =
      if a * b + c ≤ U32_MAX then some (a * b + c) else none := by
  unfold checked_mul checked_add
  by_cases h1 : a * b ≤ U32_MAX
  · simp only [h1, if_true, Option.some_bind]
  · have h2 : ¬(a * b + c ≤ U32_MAX) := by omega
    simp [h1, h2]

theorem checkPlane_error {fdSize : Int → Option Int} {h : Int} {p : Plane}
    {e : ParamError} (he : checkPlane fdSize h p = .error e) : e = .OutOfBounds := by
  unfold checkPlane at he
  rcases hc : (checked_mul p.stride (toU32 h)).bind (fun o => checked_add o p.offset) with _ | v <;>
    rw [hc] at he
  · simp at he; exact he.symm
  · rcases hs : fdSize p.fd with _ | size <;> rw [hs] at he <;> simp at he
    split_ifs at he <;> simp_all

theorem checkPlanes_error {fdSize : Int → Option Int} {h : Int} {ps : List Plane}
    {e : ParamError} (he : checkPlanes fdSize h ps = .error e) : e = .OutOfBounds := by
  induction ps with
  | nil => simp [checkPlanes] at he
  | cons p ps ih =>
    unfold checkPlanes at he
    rcases hc : checkPlane fdSize h p with e' | u
    · rw [hc] at he; simp at he; rw [← he]; exact checkPlane_error hc
    · cases u; rw [hc] at he; exact ih he

theorem checkPlanes_ok_iff {fdSize : Int → Option Int} {h : Int} {ps : List Plane} :
    checkPlanes fdSize h ps = .ok () ↔ ∀ p ∈ ps, checkPlane fdSize h p = .ok () := by
  induction ps with
  | nil => simp [checkPlanes]
  | cons p ps ih =>
    unfold checkPlanes
    rcases hc : checkPlane fdSize h p with e' | u
    · simp [hc]
    · cases u; simp [hc, ih]

theorem checkPlane_overflow {fdSize : Int → Option Int} {h : Int} {p : Plane}
    (hov : U32_MAX < p.stride * toU32 h + p.offset) :
    checkPlane fdSize h p = .error .OutOfBounds := by
  unfold checkPlane
  rw [checked_chain_eq]
  simp [Nat.not_le.mpr hov]

theorem le_u32max_of_chain {p : Plane} {hn : Nat} (h1 : 1 ≤ hn)
    (hov : p.stride * hn + p.offset ≤ U32_MAX) :
    p.offset + p.stride ≤ U32_MAX ∧
    (p.offset + p.stride) % 4294967296 = p.offset + p.stride := by
  have hs : p.stride ≤ p.stride * hn := Nat.le_mul_of_pos_right _ (by omega)
  have hmax : U32_MAX = 4294967295 := rfl
  exact ⟨by omega, Nat.mod_eq_of_lt (by omega)⟩

theorem checkPlane_eval {fdSize : Int → Option Int} {h : Int} {p : Plane} {size : Int}
    (hs : fdSize p.fd = some size)
    (hov : p.stride * toU32 h + p.offset ≤ U32_MAX) :
    checkPlane fdSize h p =
      (if (p.offset : Int) > size then .error .OutOfBounds
       else if (((p.offset + p.stride) % 4294967296 : Nat) : Int) > size then
         .error .OutOfBounds
       else if p.plane_idx = 0 ∧ ((p.stride * toU32 h + p.offset : Nat) : Int) > size then
         .error .OutOfBounds
       else .ok ()) := by
  unfold checkPlane
  rw [checked_chain_eq]
  simp only [hov, if_true, hs]

theorem checkPlane_ok_iff {fdSize : Int → Option Int} {h : Int} {p : Plane}
    (h1 : 1 ≤ h) (h31 : h < 2147483648) :
    checkPlane fdSize h p = .ok () ↔
      (p.stride * h.toNat + p.offset ≤ U32_MAX ∧
       ∀ size, fdSize p.fd = some size →
         ((p.offset : Int) ≤ size ∧ ((p.offset + p.stride : Nat) : Int) ≤ size ∧
          (p.plane_idx = 0 → ((p.stride * h.toNat + p.offset : Nat) : Int) ≤ size))) := by
  have ht : toU32 h = h.toNat := toU32_of_bounds (by omega) (by omega)
  by_cases hov : p.stride * h.toNat + p.offset ≤ U32_MAX
  · have hwrap := le_u32max_of_chain (show 1 ≤ h.toNat by omega) hov
    rcases hsz : fdSize p.fd with _ | size
    · constructor
      · intro _
        exact ⟨hov, fun size hcontra => Option.noConfusion hcontra⟩
      · intro _
        unfold checkPlane
        rw [checked_chain_eq, ht]
        simp only [hov, if_true, hsz]
    · have heval := @checkPlane_eval fdSize h p size hsz (by rw [ht]; exact hov)
      rw [ht] at heval
      rw [heval, hwrap.2]
      simp only [Option.some.injEq, forall_eq']
      simp only [hov, true_and]
      constructor
      · intro hok
        by_cases hA : (p.offset : Int) > size
        · rw [if_pos hA] at hok; cases hok
        · rw [if_neg hA] at hok
          by_cases hB : ((p.offset + p.stride : Nat) : Int) > size
          · rw [if_pos hB] at hok; cases hok
          · rw [if_neg hB] at hok
            by_cases hC : p.plane_idx = 0 ∧ ((p.stride * h.toNat + p.offset : Nat) : Int) > size
            · rw [if_pos hC] at hok; cases hok
            · rcases Decidable.em (p.plane_idx = 0) with hidx | hidx
              · refine ⟨by omega, by omega, fun _ => ?_⟩
                have hng : ¬((p.stride * h.toNat + p.offset : Nat) : Int) > size := fun hgt =>
                  hC ⟨hidx, hgt⟩
                omega
              · exact ⟨by omega, by omega, fun hx => absurd hx hidx⟩
      · rintro ⟨ha, hb, hc⟩
        have hA : ¬((p.offset : Int) > size) := by omega
        have hB : ¬(((p.offset + p.stride : Nat) : Int) > size) := by omega
        have hC : ¬(p.plane_idx = 0 ∧ ((p.stride * h.toNat + p.offset : Nat) : Int) > size) := by
          rintro ⟨hidx, hgt⟩
          have := hc hidx
          omega
        simp only [hA, hB, hC, if_false]
  · constructor
    · intro hcon
      have := @checkPlane_overflow fdSize h p (by rw [ht]; omega)
      rw [this] at hcon; cases hcon
    · intro hall; exact absurd hall.1 hov

/-- C3: for any plane whose `stride * height + offset` exceeds the u32 range,
the validator (with a supported format and valid dimensions) fails with
`OutOfBounds`; the checked arithmetic never wraps and passes. -/
theorem validator_overflow_oob (formats : List Format) (planes : List Plane)
    (fdSize : Int → Option Int) (fmt : Fourcc) (w h : Int)
    (hfmt : (formats.find? (fun f => f.code = fmt)).isSome = true)
    (hw : 1 ≤ w) (hh : 1 ≤ h) (hh31 : h < 2147483648)
    (p : Plane) (hp : p ∈ planes)
    (hov : U32_MAX < p.stride * h.toNat + p.offset) :
    buffer_basic_checks formats planes fdSize fmt w h = .error .OutOfBounds := by
  obtain ⟨f, hf⟩ := Option.isSome_iff_exists.mp hfmt
  have hov' : U32_MAX < p.stride * toU32 h + p.offset := by
    rw [toU32_of_bounds (by omega) (by omega)]; exact hov
  unfold buffer_basic_checks
  simp only [hf]
  rw [if_neg (by omega : ¬(w < 1 ∨ h < 1))]
  rcases hcp : checkPlanes fdSize h planes with e | u
  · rw [checkPlanes_error hcp]
  · cases u
    have hall := checkPlanes_ok_iff.mp hcp p hp
    rw [checkPlane_overflow hov'] at hall
    cases hall

/-- Witness for C3: a plane with `stride = u32::MAX` and `height = 2`. -/
theorem validator_overflow_oob_witness :
    buffer_basic_checks [⟨1, Modifier.Linear⟩] [⟨5, 0, 0, 4294967295, Modifier.Linear⟩]
      (fun _ => none) 1 16 2 = .error .OutOfBounds :=
  validator_overflow_oob _ _ _ _ _ _ (by decide) (by decide) (by decide) (by decide)
    ⟨5, 0, 0, 4294967295, Modifier.Linear⟩ (by decide) (by decide)

/-- C4: with a supported format and valid i32 dimensions, the validator
accepts exactly when every plane's checked `end` fits in u32 and, where the
descriptor size probe succeeds, `offset ≤ size`, `offset + stride ≤ size`,
and — only for a plane whose index is 0 — `end ≤ size`; a plane with a
nonzero index may keep `end > size`. -/
theorem validator_plane0_asymmetry (formats : List Format) (planes : List Plane)
    (fdSize : Int → Option Int) (fmt : Fourcc) (w h : Int)
    (hfmt : (formats.find? (fun f => f.code = fmt)).isSome = true)
    (hw : 1 ≤ w) (hh : 1 ≤ h) (hh31 : h < 2147483648) :
    buffer_basic_checks formats planes fdSize fmt w h = .ok () ↔
      ∀ p ∈ planes,
        (p.stride * h.toNat + p.offset ≤ U32_MAX ∧
         ∀ size, fdSize p.fd = some size →
           ((p.offset : Int) ≤ size ∧ ((p.offset + p.stride : Nat) : Int) ≤ size ∧
            (p.plane_idx = 0 → ((p.stride * h.toNat + p.offset : Nat) : Int) ≤ size))) := by
  obtain ⟨f, hf⟩ := Option.isSome_iff_exists.mp hfmt
  unfold buffer_basic_checks
  simp only [hf]
  rw [if_neg (by omega : ¬(w < 1 ∨ h < 1)), checkPlanes_ok_iff]
  exact forall_congr' fun p => imp_congr Iff.rfl (checkPlane_ok_iff hh hh31)

/-- Witness for C4: a plane with index 1 whose end (8) exceeds the probed
size (4) still passes validation. -/
theorem validator_plane0_asymmetry_witness :
    buffer_basic_checks [⟨1, Modifier.Linear⟩] [⟨5, 1, 0, 4, Modifier.Linear⟩]
      (fun _ => some 4) 1 1 2 = .ok () := by
  refine (validator_plane0_asymmetry _ _ _ _ _ _ (by decide) (by decide) (by decide)
    (by decide)).mpr ?_
  intro p hp
  have hp' : p = ⟨5, 1, 0, 4, Modifier.Linear⟩ := by simpa using hp
  subst hp'
  refine ⟨by decide, fun size hsz => ?_⟩
  have hs4 : (4 : Int) = size := by injection hsz
  subst hs4
  exact ⟨by decide, by decide, fun h0 => absurd h0 (by decide)⟩

/-- C10: whenever the size-check comparison is reached — the loop is entered
with `height ≥ 1` and the checked `stride * height + offset` succeeded — the
unchecked u32 addition `offset + stride` cannot overflow, so its wrapping
embedding is exact. -/
theorem unchecked_add_exact (p : Plane) (h : Int) (h1 : 1 ≤ h) (h31 : h < 2147483648)
    (e : Nat)
    (hchain : (checked_mul p.stride (toU32 h)).bind (fun o => checked_add o p.offset) =
      some e) :
    p.offset + p.stride ≤ U32_MAX ∧
    (p.offset + p.stride) % 4294967296 = p.offset + p.stride := by
  rw [toU32_of_bounds (by omega) (by omega), checked_chain_eq] at hchain
  by_cases hov : p.stride * h.toNat + p.offset ≤ U32_MAX
  · exact le_u32max_of_chain (show 1 ≤ h.toNat by omega) hov
  · rw [if_neg hov] at hchain; cases hchain

/-- Witness for C10 at a concrete plane. -/
theorem unchecked_add_exact_witness :
    (0 : Nat) + 64 ≤ U32_MAX ∧ ((0 : Nat) + 64) % 4294967296 = 0 + 64 :=
  unchecked_add_exact ⟨5, 0, 0, 64, Modifier.Linear⟩ 16 (by decide) (by decide) 1024
    (by decide)

/-- C2: when the validation callback rejects the finished buffer, `create`
emits `failed` and releases the buffer (posting no protocol error, so the
connection stays open), while `create_immed` under the same rejection posts
the fatal `InvalidWlBuffer` protocol error. -/
theorem rejection_asymmetry (env : DmabufEnv) (s : ParamsHandler)
    (w h : Int) (fmt fl : Nat) (fc : Fourcc) (d : Dmabuf)
    (hused : s.used = false)
    (hdf : env.decodeFourcc fmt = some fc)
    (hchecks : buffer_basic_checks env.formats s.pending_planes env.fdSize fc w h = .ok ())
    (hbuild : buildFromPending s.pending_planes w h fc fl = some d)
    (hval : env.validate d = false)
    (halive : env.clientAlive = true) :
    ParamsHandler.create env s w h fmt fl =
      ({ s with used := true, pending_planes := [] }, [.Failed, .Released]) ∧
    (∀ e, Event.PostError e ∉ (ParamsHandler.create env s w h fmt fl).2) ∧
    ParamsHandler.create_immed env s w h fmt fl =
      ({ s with used := true, pending_planes := [] }, [.PostError .InvalidWlBuffer]) := by
  have hcreate : ParamsHandler.create env s w h fmt fl =
      ({ s with used := true, pending_planes := [] }, [.Failed, .Released]) := by
    unfold ParamsHandler.create
    simp [hused, hdf, hchecks, hbuild, hval, halive]
  refine ⟨hcreate, ?_, ?_⟩
  · intro e
    rw [hcreate]
    simp
  · unfold ParamsHandler.create_immed
    simp [hused, hdf, hchecks, hbuild, hval]

/-- Witness for C2 at a concrete rejected negotiation. -/
theorem rejection_asymmetry_witness :
    ParamsHandler.create envW sW 16 16 1 0 =
      ({ sW with used := true, pending_planes := [] }, [.Failed, .Released]) ∧
    ParamsHandler.create_immed envW sW 16 16 1 0 =
      ({ sW with used := true, pending_planes := [] }, [.PostError .InvalidWlBuffer]) :=
  have h := rejection_asymmetry envW sW 16 16 1 0 1 dW rfl rfl rfl rfl rfl rfl
  ⟨h.1, h.2.2⟩

theorem reindexFrom_length (i : Nat) (ps : List Plane) :
    (reindexFrom i ps).length = ps.length := by
  induction ps generalizing i with
  | nil => rfl
  | cons p ps ih => simp [reindexFrom, ih]

theorem reindexFrom_map_idx (i : Nat) (ps : List Plane) :
    (reindexFrom i ps).map DPlane.plane_idx = List.range' i ps.length := by
  induction ps generalizing i with
  | nil => rfl
  | cons p ps ih => simp [reindexFrom, List.range'_succ, ih]

theorem reindexFrom_get (i : Nat) (ps : List Plane) (k : Nat) (hk : k < ps.length)
    (hk2 : k < (reindexFrom i ps).length) :
    (reindexFrom i ps).get ⟨k, hk2⟩ =
      ⟨(ps.get ⟨k, hk⟩).fd, i + k, (ps.get ⟨k, hk⟩).offset,
       (ps.get ⟨k, hk⟩).stride, (ps.get ⟨k, hk⟩).modifier⟩ := by
  induction ps generalizing i k with
  | nil => cases hk
  | cons p ps ih =>
    cases k with
    | zero => simp [reindexFrom]
    | succ k =>
      have hk' : k < ps.length := by simpa using hk
      have hk2' : k < (reindexFrom (i + 1) ps).length := by
        rw [reindexFrom_length]; exact hk'
      have := ih (i + 1) k hk' hk2'
      simp only [reindexFrom, List.get_cons_succ, this]
      congr 1
      omega

theorem addPendingFrom_eq (buf : Dmabuf) (i : Nat) (ps : List Plane) :
    addPendingFrom buf i ps = { buf with planes := buf.planes ++ reindexFrom i ps } := by
  induction ps generalizing buf i with
  | nil => simp [addPendingFrom, reindexFrom]
  | cons p ps ih =>
    rw [addPendingFrom, ih]
    simp [Dmabuf.add_plane, reindexFrom]

/-- C9: a `create`/`create_immed` that reaches the build step produces a
buffer whose k-th plane is the k-th `add`ed plane carrying plane index k:
the client-supplied `plane_idx` is discarded, so indices are contiguous
from 0. -/
theorem build_reindexes (planes : List Plane) (w h : Int) (fc : Fourcc) (fl : Nat)
    (hne : planes ≠ []) :
    ∃ d, buildFromPending planes w h fc fl = some d ∧
      d.planes.length = planes.length ∧
      ∀ k (hk : k < planes.length) (hk2 : k < d.planes.length),
        d.planes.get ⟨k, hk2⟩ =
          ⟨(planes.get ⟨k, hk⟩).fd, k, (planes.get ⟨k, hk⟩).offset,
           (planes.get ⟨k, hk⟩).stride, (planes.get ⟨k, hk⟩).modifier⟩ := by
  unfold buildFromPending
  rw [addPendingFrom_eq]
  have hplanes : ({ Dmabuf.new (toU32 w) (toU32 h) fc fl with
      planes := (Dmabuf.new (toU32 w) (toU32 h) fc fl).planes ++ reindexFrom 0 planes }
        : Dmabuf).planes = reindexFrom 0 planes := by
    simp [Dmabuf.new]
  have hne' : reindexFrom 0 planes ≠ [] := by
    intro hcon
    have := reindexFrom_length 0 planes
    rw [hcon] at this
    exact hne (List.eq_nil_of_length_eq_zero this.symm)
  have hidx : (reindexFrom 0 planes).map DPlane.plane_idx =
      List.range (reindexFrom 0 planes).length := by
    rw [reindexFrom_map_idx, reindexFrom_length, List.range_eq_range']
  refine ⟨{ Dmabuf.new (toU32 w) (toU32 h) fc fl with
    planes := (Dmabuf.new (toU32 w) (toU32 h) fc fl).planes ++ reindexFrom 0 planes },
    ?_, ?_, ?_⟩
  · unfold Dmabuf.build
    rw [hplanes]
    rw [if_neg hne', if_pos hidx]
  · rw [hplanes]; exact reindexFrom_length 0 planes
  · intro k hk hk2
    have hk2a : k < (reindexFrom 0 planes).length := by
      simpa [Dmabuf.new] using hk2
    simpa [Dmabuf.new] using reindexFrom_get 0 planes k hk hk2a

/-- Witness for C9: adds at client indices 0 and 2 build a buffer with two
planes indexed 0 and 1. -/
theorem build_reindexes_witness :
    ∃ d, buildFromPending [⟨5, 0, 0, 64, Modifier.Linear⟩, ⟨6, 2, 0, 64, Modifier.Linear⟩]
        16 16 1 0 = some d ∧ d.planes.length = 2 ∧
      (∀ hk2 : 1 < d.planes.length, (d.planes.get ⟨1, hk2⟩).plane_idx = 1) := by
  obtain ⟨d, hd, hlen, hget⟩ :=
    build_reindexes [⟨5, 0, 0, 64, Modifier.Linear⟩, ⟨6, 2, 0, 64, Modifier.Linear⟩]
      16 16 1 0 (by decide)
  exact ⟨d, hd, hlen.trans (by decide), fun hk2 => by rw [hget 1 (by decide) hk2]⟩

/-- C8: `create_buffer` takes the usage-flag path (scanout|rendering, plus
linear exactly for the linear sentinel) if and only if the requested modifier
is the "no preference" or "linear" sentinel; any other modifier takes the
explicit-modifier path constrained to that one modifier. -/
theorem create_buffer_policy (w h : Nat) (fmt : Format) :
    (fmt.modifier = Modifier.Invalid ∨ fmt.modifier = Modifier.Linear →
      GbmDevice.create_buffer w h fmt = .usagePath w h fmt.code
        ⟨true, true, decide (fmt.modifier = Modifier.Linear)⟩) ∧
    (fmt.modifier ≠ Modifier.Invalid → fmt.modifier ≠ Modifier.Linear →
      GbmDevice.create_buffer w h fmt = .modifierPath w h fmt.code [fmt.modifier]) ∧
    (∀ u, GbmDevice.create_buffer w h fmt = .usagePath w h fmt.code u →
      fmt.modifier = Modifier.Invalid ∨ fmt.modifier = Modifier.Linear) := by
  unfold GbmDevice.create_buffer
  by_cases hsen : fmt.modifier = Modifier.Invalid ∨ fmt.modifier = Modifier.Linear
  · rw [if_pos hsen]
    refine ⟨fun _ => ?_, fun h1 h2 => absurd hsen (by tauto), fun u _ => hsen⟩
    by_cases hlin : fmt.modifier = Modifier.Linear
    · simp [hlin, BufferObjectFlags.union, BufferObjectFlags.LINEAR]
    · simp [hlin]
  · rw [if_neg hsen]
    exact ⟨fun hcon => absurd hcon hsen, fun _ _ => rfl, fun u hcon => by cases hcon⟩

/-- Witness for C8: the linear sentinel takes the usage path with the linear
flag added; an opaque modifier (42) takes the explicit-modifier path. -/
theorem create_buffer_policy_witness :
    GbmDevice.create_buffer 64 64 ⟨1, Modifier.Linear⟩ =
      .usagePath 64 64 1 ⟨true, true, true⟩ ∧
    GbmDevice.create_buffer 64 64 ⟨1, 42⟩ = .modifierPath 64 64 1 [42] :=
  ⟨(create_buffer_policy 64 64 ⟨1, Modifier.Linear⟩).1 (Or.inr rfl),
   (create_buffer_policy 64 64 ⟨1, 42⟩).2.1 (by decide) (by decide)⟩

theorem u32_i32_roundtrip (n : Nat) (hn : n < 4294967296) : u32ofI32 (i32ofU32 n) = n := by
  unfold u32ofI32 i32ofU32 toU32
  split_ifs <;> omega

/-- C7: `import` issues the multi-plane-with-modifiers call iff the buffer
carries an explicit modifier, has more than one plane, or has a nonzero
first-plane offset; otherwise it issues the simple single-plane call with the
first plane's descriptor and stride, adding the linear usage flag exactly
when the modifier is the explicit linear sentinel. -/
theorem import_path_policy (d : Dmabuf) (usage : BufferObjectFlags)
    (p : DPlane) (ps : List DPlane) (hpp : d.planes = p :: ps)
    (hstr : p.stride < 4294967296) :
    (d.import usage = some (.withModifiers d.planes.length (fill4 (d.planes.map DPlane.fd))
        d.width d.height d.format_code usage
        (fill4 ((d.planes.map DPlane.stride).map i32ofU32))
        (fill4 ((d.planes.map DPlane.offset).map i32ofU32))
        d.format.modifier)
      ↔ (d.has_modifier = true ∨ 1 < d.planes.length ∨ p.offset ≠ 0)) ∧
    (d.has_modifier = false → ¬(1 < d.planes.length) → p.offset = 0 →
      d.import usage = some (.simple p.fd d.width d.height p.stride d.format_code
        (if d.format.modifier = Modifier.Linear then usage.union .LINEAR else usage))) := by
  have hoff : d.offsets.head? = some p.offset := by
    simp [Dmabuf.offsets, hpp]
  by_cases hm : d.has_modifier = true
  · have himp : d.import usage = some (.withModifiers d.planes.length
        (fill4 (d.planes.map DPlane.fd)) d.width d.height d.format_code usage
        (fill4 ((d.planes.map DPlane.stride).map i32ofU32))
        (fill4 ((d.planes.map DPlane.offset).map i32ofU32)) d.format.modifier) := by
      unfold Dmabuf.import
      rw [if_pos (Or.inl hm)]
      rfl
    exact ⟨iff_of_true himp (Or.inl hm), fun hcon => absurd hm (by simp [hcon])⟩
  · have hm' : d.has_modifier = false := by
      revert hm; cases d.has_modifier <;> simp
    by_cases hnp : 1 < d.planes.length
    · have himp : d.import usage = some (.withModifiers d.planes.length
          (fill4 (d.planes.map DPlane.fd)) d.width d.height d.format_code usage
          (fill4 ((d.planes.map DPlane.stride).map i32ofU32))
          (fill4 ((d.planes.map DPlane.offset).map i32ofU32)) d.format.modifier) := by
        unfold Dmabuf.import
        rw [if_pos (Or.inr (show 1 < d.num_planes from hnp))]
        rfl
      exact ⟨iff_of_true himp (Or.inr (Or.inl hnp)), fun _ hcon _ => absurd hnp hcon⟩
    · have hnocond : ¬(d.has_modifier = true ∨ 1 < d.num_planes) := by
        rintro (hc | hc)
        · exact hm hc
        · exact hnp hc
      by_cases ho : p.offset ≠ 0
      · have himp : d.import usage = some (.withModifiers d.planes.length
            (fill4 (d.planes.map DPlane.fd)) d.width d.height d.format_code usage
            (fill4 ((d.planes.map DPlane.stride).map i32ofU32))
            (fill4 ((d.planes.map DPlane.offset).map i32ofU32)) d.format.modifier) := by
          unfold Dmabuf.import
          rw [if_neg hnocond]
          simp only [hoff]
          rw [if_pos ho]
          rfl
        exact ⟨iff_of_true himp (Or.inr (Or.inr ho)), fun _ _ hcon => absurd hcon ho⟩
      · have ho0 : p.offset = 0 := by omega
        have himp : d.import usage = some (.simple p.fd d.width d.height p.stride
            d.format_code
            (if d.format.modifier = Modifier.Linear then usage.union .LINEAR else usage)) := by
          unfold Dmabuf.import
          rw [if_neg hnocond]
          simp only [hoff]
          rw [if_neg (by omega : ¬p.offset ≠ 0)]
          have hh : (fill4 d.handles).headD 0 = p.fd := by
            simp only [Dmabuf.handles, hpp]
            simp [fill4]
          have hsd : (fill4 (List.map i32ofU32 d.strides)).headD 0 = i32ofU32 p.stride := by
            simp only [Dmabuf.strides, hpp]
            simp [fill4]
          rw [hh, hsd, u32_i32_roundtrip p.stride hstr]
        refine ⟨iff_of_false (fun hcon => ?_) (by
          rintro (hc | hc | hc)
          · exact hm hc
          · exact hnp hc
          · exact hc ho0), fun _ _ _ => himp⟩
        rw [himp] at hcon
        exact GbmImportCall.noConfusion (Option.some.inj hcon)

/-- Witness for C7: a single linear plane at offset 0 takes the simple import
path with the linear usage flag added. -/
theorem import_path_policy_witness :
    Dmabuf.import (⟨64, 64, 1, 0, [⟨5, 0, 0, 256, Modifier.Linear⟩]⟩ : Dmabuf)
      (⟨false, true, false⟩ : BufferObjectFlags) =
      some (.simple 5 64 64 256 1 ⟨false, true, true⟩) := by
  have h := import_path_policy (⟨64, 64, 1, 0, [⟨5, 0, 0, 256, Modifier.Linear⟩]⟩ : Dmabuf)
    (⟨false, true, false⟩ : BufferObjectFlags)
    ⟨5, 0, 0, 256, Modifier.Linear⟩ [] rfl (by decide)
  exact h.2 (by decide) (by decide) rfl

theorem handleFold_some {b : GbmBuffer} {is : List Nat}
    {first r : Except DeviceDestroyedError Nat}
    (h : handleFold b is first = some r) :
    r = first ∧ (∀ i ∈ is, b.handle_for_plane i = first) ∧
      (is ≠ [] → ∃ g, first = .ok g) := by
  induction is generalizing first with
  | nil =>
    unfold handleFold at h
    exact ⟨(Option.some.inj h).symm, by simp, fun hcon => absurd rfl hcon⟩
  | cons i is ih =>
    unfold handleFold at h
    cases hh : b.handle_for_plane i with
    | error e =>
      rw [hh] at h
      cases first <;> simp at h
    | ok next =>
      rw [hh] at h
      cases first with
      | error e => simp at h
      | ok f =>
        have h2 : (if next = f then handleFold b is (Except.ok f) else none) = some r := h
        by_cases hnf : next = f
        · rw [if_pos hnf] at h2
          obtain ⟨hr, hall, _⟩ := ih h2
          refine ⟨hr, fun j hj => ?_, fun _ => ⟨f, rfl⟩⟩
          rcases List.mem_cons.mp hj with rfl | hj
          · rw [hh, hnf]
          · exact hall j hj
        · rw [if_neg hnf] at h2
          cases h2

theorem handleFold_all {b : GbmBuffer} {f : Nat} {is : List Nat}
    (hall : ∀ i ∈ is, b.handle_for_plane i = .ok f) :
    handleFold b is (.ok f) = some (.ok f) := by
  induction is with
  | nil => rfl
  | cons i is ih =>
    unfold handleFold
    rw [hall i (by simp)]
    show (if f = f then handleFold b is (Except.ok f) else none) = some (Except.ok f)
    rw [if_pos rfl]
    exact ih fun j hj => hall j (by simp [hj])

theorem exportPlanesLoop_ok {b : GbmBuffer} {f : Int} {m : Modifier}
    (off str : Nat → Nat) (hfd : b.fd = .ok f) (hm : b.modifier = .ok m) :
    ∀ (l : List Nat) (buf : Dmabuf),
      (∀ i ∈ l, b.offset i = .ok (off i)) →
      (∀ i ∈ l, b.stride_for_plane i = .ok (str i)) →
      exportPlanesLoop b l buf = .ok { buf with planes := buf.planes ++ l.map (fun i => ⟨f, i, off i, str i, m⟩) } := by
  intro l
  induction l with
  | nil =>
    intro buf _ _
    simp [exportPlanesLoop]
  | cons i is ih =>
    intro buf hoff hstr
    unfold exportPlanesLoop
    simp only [hfd, hoff i (by simp), hstr i (by simp), hm]
    rw [ih (buf.add_plane f i (off i) (str i) m)
      (fun j hj => hoff j (by simp [hj])) (fun j hj => hstr j (by simp [hj]))]
    simp [Dmabuf.add_plane]

theorem range'_one_mem_iff {N i : Nat} (hN : 1 ≤ N) :
    i ∈ List.range' 1 (N - 1) ↔ 1 ≤ i ∧ i < N := by
  rw [List.mem_range'_1]
  omega

/-- C6 (amended): with `N ≥ 1` queried planes, export fails with
`UnsupportedBuffer` when `N ≥ 2` and two handles differ or a handle is
unreadable (a single-plane buffer's handle is never inspected); with all
handles equal, a whole-object descriptor of 0 yields `InvalidFD`; otherwise
the one descriptor is reused in every plane entry of the `N`-plane result,
together with each plane's queried offset, stride and modifier. -/
theorem export_characterization (b : GbmBuffer) (N : Nat)
    (hpc : b.plane_count = .ok N) (hN : 1 ≤ N) :
    (2 ≤ N →
      ((∃ i, i < N ∧ ∃ e, b.handle_for_plane i = .error e) ∨
       (∃ i j u v, i < N ∧ j < N ∧ b.handle_for_plane i = .ok u ∧
         b.handle_for_plane j = .ok v ∧ u ≠ v)) →
      b.export = .err .UnsupportedBuffer) ∧
    (∀ u, (∀ i, i < N → b.handle_for_plane i = .ok u) → b.fd = .ok 0 →
      b.export = .err .InvalidFD) ∧
    (∀ u f m (off str : Nat → Nat),
      (∀ i, i < N → b.handle_for_plane i = .ok u) →
      b.fd = .ok f → f ≠ 0 →
      (∀ i, i < N → b.offset i = .ok (off i)) →
      (∀ i, i < N → b.stride_for_plane i = .ok (str i)) →
      b.modifier = .ok m →
      b.export = .ok ⟨b.buffer_width, b.buffer_height, b.buffer_format.code, 0,
        (List.range N).map (fun i => ⟨f, i, off i, str i, m⟩)⟩) := by
  refine ⟨fun hN2 hbad => ?_, fun u hall hfd0 => ?_, fun u f m off str hall hfd hf0 hoff hstr hm => ?_⟩
  · rcases hfold : handleFold b (List.range' 1 (N - 1)) (b.handle_for_plane 0) with _ | r
    · unfold GbmBuffer.export
      simp only [hpc]
      rw [if_neg (by omega : ¬N = 0)]
      simp only [hfold]
    · exfalso
      obtain ⟨hr, hrest, hfirst⟩ := handleFold_some hfold
      have hrestne : List.range' 1 (N - 1) ≠ [] := by
        have : (List.range' 1 (N - 1)).length = N - 1 := by simp
        intro hcon
        rw [hcon] at this
        simp at this
        omega
      obtain ⟨g, hg⟩ := hfirst hrestne
      have hallN : ∀ i, i < N → b.handle_for_plane i = .ok g := by
        intro i hiN
        rcases Nat.eq_zero_or_pos i with rfl | hipos
        · exact hg
        · exact (hrest i ((range'_one_mem_iff hN).mpr ⟨hipos, hiN⟩)).trans hg
      rcases hbad with ⟨i, hiN, e, he⟩ | ⟨i, j, u, v, hiN, hjN, hu, hv, huv⟩
      · rw [hallN i hiN] at he
        cases he
      · rw [hallN i hiN] at hu
        rw [hallN j hjN] at hv
        exact huv ((Except.ok.inj hu).symm.trans (Except.ok.inj hv))
  · have hfold : handleFold b (List.range' 1 (N - 1)) (b.handle_for_plane 0) =
        some (.ok u) := by
      rw [hall 0 (by omega)]
      exact handleFold_all fun i hi => hall i ((range'_one_mem_iff hN).mp hi).2
    unfold GbmBuffer.export
    simp only [hpc]
    rw [if_neg (by omega : ¬N = 0)]
    simp only [hfold, hfd0]
    simp
  · have hfold : handleFold b (List.range' 1 (N - 1)) (b.handle_for_plane 0) =
        some (.ok u) := by
      rw [hall 0 (by omega)]
      exact handleFold_all fun i hi => hall i ((range'_one_mem_iff hN).mp hi).2
    have hloop := exportPlanesLoop_ok off str hfd hm (List.range N)
      (Dmabuf.new_from_buffer b 0)
      (fun i hi => hoff i (List.mem_range.mp hi))
      (fun i hi => hstr i (List.mem_range.mp hi))
    unfold GbmBuffer.export
    simp only [hpc]
    rw [if_neg (by omega : ¬N = 0)]
    simp only [hfold, hfd]
    rw [if_neg hf0]
    rw [hloop]
    have hplanes : (Dmabuf.new_from_buffer b 0).planes ++
        (List.range N).map (fun i => (⟨f, i, off i, str i, m⟩ : DPlane)) =
        (List.range N).map (fun i => (⟨f, i, off i, str i, m⟩ : DPlane)) := by
      simp [Dmabuf.new_from_buffer]
    unfold Dmabuf.build
    simp only [hplanes]
    rw [if_neg (by
      simp only [ne_eq, List.map_eq_nil_iff, List.range_eq_nil]
      omega)]
    rw [if_pos (by
      rw [List.map_map]
      have h1 : (DPlane.plane_idx ∘ fun i => (⟨f, i, off i, str i, m⟩ : DPlane)) =
          fun i => i := rfl
      rw [h1, List.map_id', List.length_map, List.length_range])]
    rfl

/-- Counterexample to C6 as stated: a single-plane buffer object whose only
plane handle is unreadable is not rejected with `UnsupportedBuffer` — the
handle check is skipped for `N = 1` and export succeeds. -/
theorem export_unreadable_single_plane_cex :
    (cexBuf.handle_for_plane 0) = .error .mk ∧
    cexBuf.plane_count = .ok 1 ∧
    cexBuf.export ≠ .err .UnsupportedBuffer ∧
    cexBuf.export = .ok ⟨64, 64, 1, 0, [⟨5, 0, 0, 256, Modifier.Linear⟩]⟩ := by
  refine ⟨rfl, rfl, ?_, rfl⟩
  intro hcon
  rw [(rfl : cexBuf.export = .ok ⟨64, 64, 1, 0, [⟨5, 0, 0, 256, Modifier.Linear⟩]⟩)] at hcon
  cases hcon

/-- Witness for the amended C6 at a concrete two-plane buffer object. -/
theorem export_characterization_witness :
    gbmW.export = .ok ⟨64, 64, 1, 0, [⟨5, 0, 0, 256, 42⟩, ⟨5, 1, 4096, 256, 42⟩]⟩ := by
  have h := (export_characterization gbmW 2 rfl (by decide)).2.2 7 5 42
    (fun i => i * 4096) (fun _ => 256) (fun _ _ => rfl) rfl (by decide)
    (fun _ _ => rfl) (fun _ _ => rfl) rfl
  exact h
